import Mathlib

/-!
# Verification of the house_maker finger-joint and layout core

Shallow embedding of the finger-joint coordination engine
(`src/multi_finger_joints.py`), the static joint configuration table and
panel dimensions (`src/geometry.py`), and the 2D layout packer
(`src/geometry.py`).  Python floats are embedded as exact rationals (`ℚ`);
Python `int` as `ℤ`/`ℕ`; functions that may raise as `Except String`.
SVG path emission is modelled in the edge frame: each `L x,y` command of an
edge's path is the pair (position along the edge, signed perpendicular
offset), which determines the absolute command via the edge's affine frame.
-/

namespace HouseMaker

/-- Python `int(q)` (truncation toward zero) on an exact rational. -/
def pyInt (q : ℚ) : ℤ := if q < 0 then ⌈q⌉ else ⌊q⌋

/-! ## Geometry model (`src/geometry.py`, class `HouseGeometry`)

Only the non-trigonometric derived quantities are embedded: every claim
under scrutiny concerns edges whose nominal length is a polynomial in the
base dimensions (the sloped gable profile heights, which involve `tan θ`
and `cos θ`, are not needed by any claim). -/

structure Geom where
  x : ℚ
  y : ℚ
  z : ℚ
  thickness : ℚ
  finger_length : ℚ
  kerf : ℚ
deriving DecidableEq, Repr

/-- `HouseGeometry._calculate_derived_dimensions`: kerf-compensated x. -/
def Geom.xKerf (g : Geom) : ℚ := if 0 < g.kerf then g.x + g.kerf else g.x

/-- `HouseGeometry._calculate_derived_dimensions`: kerf-compensated y. -/
def Geom.yKerf (g : Geom) : ℚ := if 0 < g.kerf then g.y + g.kerf else g.y

/-- `HouseGeometry._calculate_derived_dimensions`: kerf-compensated z. -/
def Geom.zKerf (g : Geom) : ℚ := if 0 < g.kerf then g.z + g.kerf else g.z

/-- `HouseGeometry._calculate_derived_dimensions`: roof panel length
`x + 6 * thickness`. -/
def Geom.roofPanelLength (g : Geom) : ℚ := g.x + 6 * g.thickness

/-! ## Joint configuration table
(`src/geometry.py`, `HouseGeometry.get_finger_joint_configuration`) -/

/-- A value of the per-panel configuration dict: either a joint polarity
(`some true` = Male, `some false` = Female, `none` = no joint) or the
`internal_cutouts` list of a roof panel. -/
inductive ConfigVal where
  | pol : Option Bool → ConfigVal
  | cutouts : List String → ConfigVal
deriving DecidableEq, Repr

/-- The panel names that have an entry in the joint configuration table. -/
def configPanels : List String :=
  ["floor", "side_wall_left", "side_wall_right",
   "gable_wall_front", "gable_wall_back",
   "roof_panel_left", "roof_panel_right"]

/-- The static joint configuration table,
`HouseGeometry.get_finger_joint_configuration`, entry by entry. -/
def panelConfig : String → String → Option ConfigVal
  | "floor", "bottom" => some (.pol (some true))
  | "floor", "right" => some (.pol (some true))
  | "floor", "top" => some (.pol (some true))
  | "floor", "left" => some (.pol (some true))
  | "side_wall_left", "bottom" => some (.pol (some false))
  | "side_wall_left", "right" => some (.pol (some true))
  | "side_wall_left", "top" => some (.pol none)
  | "side_wall_left", "left" => some (.pol (some true))
  | "side_wall_right", "bottom" => some (.pol (some false))
  | "side_wall_right", "right" => some (.pol (some true))
  | "side_wall_right", "top" => some (.pol none)
  | "side_wall_right", "left" => some (.pol (some true))
  | "gable_wall_front", "bottom" => some (.pol (some false))
  | "gable_wall_front", "right" => some (.pol (some false))
  | "gable_wall_front", "roof_right" => some (.pol (some true))
  | "gable_wall_front", "roof_left" => some (.pol (some true))
  | "gable_wall_front", "left" => some (.pol (some false))
  | "gable_wall_back", "bottom" => some (.pol (some false))
  | "gable_wall_back", "right" => some (.pol (some false))
  | "gable_wall_back", "roof_right" => some (.pol (some true))
  | "gable_wall_back", "roof_left" => some (.pol (some true))
  | "gable_wall_back", "left" => some (.pol (some false))
  | "roof_panel_left", "gable_edge" => some (.pol (some false))
  | "roof_panel_left", "left" => some (.pol none)
  | "roof_panel_left", "outer" => some (.pol none)
  | "roof_panel_left", "right" => some (.pol none)
  | "roof_panel_left", "internal_cutouts" => some (.cutouts ["vertical", "vertical"])
  | "roof_panel_right", "gable_edge" => some (.pol (some true))
  | "roof_panel_right", "left" => some (.pol none)
  | "roof_panel_right", "outer" => some (.pol none)
  | "roof_panel_right", "right" => some (.pol none)
  | "roof_panel_right", "internal_cutouts" => some (.cutouts ["vertical", "vertical"])
  | _, _ => none

/-- The polarity assigned by the table to a (panel, edge) pair, when the
entry exists and is a polarity (`some true` Male, `some false` Female,
`none` smooth). -/
def jointPolarity (panel edge : String) : Option (Option Bool) :=
  match panelConfig panel edge with
  | some (.pol p) => some p
  | _ => none

/-- The mating (panel, edge) of each male edge entry, as documented by the
per-entry comments of `get_finger_joint_configuration` (e.g.
`'bottom': True,  # Male joint to gable_wall_front`). -/
def matingEdge : String → String → Option (String × String)
  | "floor", "bottom" => some ("gable_wall_front", "bottom")
  | "floor", "right" => some ("side_wall_right", "bottom")
  | "floor", "top" => some ("gable_wall_back", "bottom")
  | "floor", "left" => some ("side_wall_left", "bottom")
  | "side_wall_left", "right" => some ("gable_wall_front", "left")
  | "side_wall_left", "left" => some ("gable_wall_back", "right")
  | "side_wall_right", "right" => some ("gable_wall_back", "left")
  | "side_wall_right", "left" => some ("gable_wall_front", "right")
  | "gable_wall_front", "roof_right" => some ("roof_panel_right", "gable_edge")
  | "gable_wall_front", "roof_left" => some ("roof_panel_left", "gable_edge")
  | "gable_wall_back", "roof_right" => some ("roof_panel_right", "gable_edge")
  | "gable_wall_back", "roof_left" => some ("roof_panel_left", "gable_edge")
  | _, _ => none

/-- Nominal (design) length of each straight named panel edge, read off the
corner lists built by `EnhancedHousePanelGenerator.generate_floor_panel`,
`generate_wall_panel`, `generate_gable_wall_panel` and
`generate_roof_panel` together with `HouseGeometry.get_panel_dimensions`.
The floor uses the raw `length`/`width` (`x`, `y`); walls use the
kerf-compensated panel dimensions; the gable wall is `y_kerf + 2*thickness`
wide and its vertical sides have height `z`; roof panels are
`roof_panel_length` long.  The sloped `roof_left`/`roof_right` edges of the
gable walls and the `left`/`right` edges of the roof panels involve
`tan θ` / `cos θ` and are not needed; they are omitted (`none`). -/
def edgeNominalLength (g : Geom) : String → String → Option ℚ
  | "floor", "bottom" => some g.x
  | "floor", "top" => some g.x
  | "floor", "left" => some g.y
  | "floor", "right" => some g.y
  | "side_wall_left", "bottom" => some g.xKerf
  | "side_wall_left", "top" => some g.xKerf
  | "side_wall_left", "left" => some g.zKerf
  | "side_wall_left", "right" => some g.zKerf
  | "side_wall_right", "bottom" => some g.xKerf
  | "side_wall_right", "top" => some g.xKerf
  | "side_wall_right", "left" => some g.zKerf
  | "side_wall_right", "right" => some g.zKerf
  | "gable_wall_front", "bottom" => some (g.yKerf + 2 * g.thickness)
  | "gable_wall_front", "left" => some g.z
  | "gable_wall_front", "right" => some g.z
  | "gable_wall_back", "bottom" => some (g.yKerf + 2 * g.thickness)
  | "gable_wall_back", "left" => some g.z
  | "gable_wall_back", "right" => some g.z
  | "roof_panel_left", "gable_edge" => some g.roofPanelLength
  | "roof_panel_left", "outer" => some g.roofPanelLength
  | "roof_panel_right", "gable_edge" => some g.roofPanelLength
  | "roof_panel_right", "outer" => some g.roofPanelLength
  | _, _ => none

/-! ## Multi-joint distribution algorithm
(`src/multi_finger_joints.py`, class `MultiFingerJointGenerator`) -/

/-- `MultiFingerJointGenerator.calculate_optimal_joint_count`.
`single` is the generator's `single_joints` flag, `F` its `finger_length`
(`min_joint_spacing = F * 0.8`, `max_joints_per_edge = 7`,
`min_edge_length_for_multiple = F * 2.5`). -/
def calculate_optimal_joint_count (single : Bool) (F L : ℚ) : ℕ :=
  if single then 1
  else if L < F * 2.5 then 1
  else
    let reserved_end_space := F
    let available_space := L - reserved_end_space
    let joint_plus_spacing := F + F * 0.8
    let maxPossible : ℤ := pyInt ((available_space + F * 0.8) / joint_plus_spacing)
    let maxPossible := min maxPossible 7
    if 7 ≤ maxPossible then 7
    else if 5 ≤ maxPossible then 5
    else if 3 ≤ maxPossible then 3
    else 1

/-- The joint-placement loop at the end of
`calculate_joint_positions`: starting at `cur`, place `n` joints of length
`F` separated by `gap`. -/
def buildPositions (F gap : ℚ) : ℕ → ℚ → List (ℚ × ℚ)
  | 0, _ => []
  | n + 1, cur => (cur, cur + F) :: buildPositions F gap n (cur + F + gap)

/-- `MultiFingerJointGenerator.calculate_joint_positions`.  The Python
function recurses with `max(1, joint_count - 2)` when the equal gap falls
below `0.3 * F`.  For `joint_count = n + 2` that retry count is `1` when
`n = 0` and `n` otherwise; the `n = 0` retry (which immediately returns
the single centered joint) is inlined below, and the `joint_count = 0`
case likewise inlines its single retry step (Python `max(1, -2) = 1`), so
the recursion is structural and the definition total. -/
def calculate_joint_positions (F L offset : ℚ) : ℕ → List (ℚ × ℚ)
  | 0 =>
    if L / 1 < F * 0.3 then
      let start := (L - F) / 2 + offset
      [(start, start + F)]
    else []
  | 1 =>
    let start := (L - F) / 2 + offset
    [(start, start + F)]
  | n + 2 =>
    let joint_count := n + 2
    let total_joint_length := (joint_count : ℚ) * F
    let total_gap_space := L - total_joint_length
    let gap_count := (joint_count : ℚ) + 1
    let gap_size := total_gap_space / gap_count
    if gap_size < F * 0.3 then
      match n with
      | 0 =>
        let start := (L - F) / 2 + offset
        [(start, start + F)]
      | m + 1 => calculate_joint_positions F L offset (m + 1)
    else
      buildPositions F gap_size joint_count (gap_size + offset)

/-! ## Edge path generation
(`MultiFingerJointGenerator.generate_multi_joint_edge`)

The Python function computes the Euclidean edge length from the two corner
points and thereafter works in the edge's frame: positions along the unit
tangent and a signed offset along the perpendicular selected by
`thickness_direction`.  The embedding takes the edge length as input and
produces the emitted `L` commands as (along, perpendicular) coordinate
pairs in that frame. -/

/-- The `calc_length` / `offset` adjustment of
`generate_multi_joint_edge` (gable wall `bottom` edges are laid out
against the floor edge, `edge_length - 2 * thickness`, shifted by one
thickness). `t` is the material thickness. -/
def edgeCalcParams (t : ℚ) (panel edge : String) (L : ℚ) : ℚ × ℚ :=
  if (panel = "gable_wall_front" ∨ panel = "gable_wall_back") ∧ edge = "bottom" then
    (L - 2 * t, t)
  else (L, 0)

/-- The joint count chosen by `generate_multi_joint_edge`: gable wall roof
edges are pinned to one joint; every other edge uses
`calculate_optimal_joint_count` on the adjusted length. -/
def edgeJointCount (single : Bool) (F t : ℚ) (panel edge : String) (L : ℚ) : ℕ :=
  if (panel = "gable_wall_front" ∨ panel = "gable_wall_back") ∧
      (edge = "roof_left" ∨ edge = "roof_right") then 1
  else calculate_optimal_joint_count single F (edgeCalcParams t panel edge L).1

/-- The joint (start, end) pairs that `generate_multi_joint_edge` actually
places on an edge: none when the edge has no joint or is shorter than
`1.5 * finger_length`, otherwise the positions computed by
`calculate_joint_positions` on the adjusted length and count. -/
def edgeEmittedJoints (single : Bool) (F t : ℚ) (panel edge : String)
    (L : ℚ) (has_joint : Bool) : List (ℚ × ℚ) :=
  if ¬ has_joint then []
  else if L < F * 1.5 then []
  else
    let p := edgeCalcParams t panel edge L
    calculate_joint_positions F p.1 p.2 (edgeJointCount single F t panel edge L)

/-- The joint-emission loop of `generate_multi_joint_edge` in frame
coordinates: for each joint, an optional move to the joint start on the
edge, the perpendicular excursion of size `jt` (the signed, kerf-adjusted
thickness), the traverse, and the return to the edge. -/
def emitJoints (jt : ℚ) : List (ℚ × ℚ) → ℚ → List (ℚ × ℚ)
  | [], _ => []
  | (js, je) :: rest, cur =>
    (if cur < js then [(js, 0)] else []) ++
      [(js, jt), (je, jt), (je, 0)] ++ emitJoints jt rest je

/-- `generate_multi_joint_edge` in frame coordinates: the list of `L`
commands emitted for one edge, as (along, perpendicular) pairs.  `dir` is
the `thickness_direction` argument (the sign of the perpendicular), `t`
the thickness and `kerf` the kerf; male joints extrude by `t + kerf`,
female by `t - kerf`. -/
def generateMultiJointEdgeFrame (single : Bool) (F t kerf : ℚ) (dir : ℤ)
    (panel edge : String) (L : ℚ) (has_joint is_male : Bool) : List (ℚ × ℚ) :=
  if ¬ has_joint then [(L, 0)]
  else if L < F * 1.5 then [(L, 0)]
  else
    let joint_thickness := if is_male then t + kerf else t - kerf
    emitJoints ((dir : ℚ) * joint_thickness)
      (edgeEmittedJoints single F t panel edge L has_joint) 0 ++ [(L, 0)]

/-! ## Joint direction resolver
(`EnhancedHousePanelGenerator._get_joint_direction`) -/

/-- `EnhancedHousePanelGenerator._get_joint_direction`.  The source
branches on the panel family (and, for gable walls, on the edge index) but
assigns the outward direction `-1` in every branch, including the final
`else`; male joints use the outward direction, female joints its
opposite.  The `edge_name` argument is unused by the source as well. -/
def getJointDirection (panel : String) (_edge : String) (edgeIndex : ℕ)
    (is_male : Bool) : ℤ :=
  let outward : ℤ :=
    if panel = "floor" ∨ panel = "side_wall_left" ∨ panel = "side_wall_right" then -1
    else if panel = "gable_wall_front" ∨ panel = "gable_wall_back" then
      if edgeIndex = 0 ∨ edgeIndex = 1 ∨ edgeIndex = 4 then -1 else -1
    else if panel = "roof_panel_left" ∨ panel = "roof_panel_right" then -1
    else -1
  if is_male then outward else -outward

/-! ## Panel outline generation
(`EnhancedHousePanelGenerator._generate_panel_with_multi_joints`)

The loop over the panel's named edges, with the two `FingerJointError`
raises.  Each edge is given by its name and Euclidean length (in the
source, consecutive corners); the output is the per-edge frame paths. -/

/-- The per-edge body of the generation loop, with the running edge index
`i`: look the edge up in the panel's configuration, defaulting to a smooth
edge when absent, and raise on a configuration value that is not
`True`/`False`/`None`. -/
def generatePanelEdges (single : Bool) (F t kerf : ℚ) (panel : String) :
    ℕ → List (String × ℚ) → Except String (List (List (ℚ × ℚ)))
  | _, [] => .ok []
  | i, (en, len) :: rest =>
    let step : Except String (List (ℚ × ℚ)) :=
      match panelConfig panel en with
      | none =>
        .ok (generateMultiJointEdgeFrame single F t kerf 1 panel en len false false)
      | some (.pol none) =>
        .ok (generateMultiJointEdgeFrame single F t kerf 1 panel en len false false)
      | some (.pol (some true)) =>
        .ok (generateMultiJointEdgeFrame single F t kerf
          (getJointDirection panel en i true) panel en len true true)
      | some (.pol (some false)) =>
        .ok (generateMultiJointEdgeFrame single F t kerf
          (getJointDirection panel en i false) panel en len true false)
      | some (.cutouts _) => .error "Invalid joint_type configuration"
    match step with
    | .error e => .error e
    | .ok path =>
      match generatePanelEdges single F t kerf panel (i + 1) rest with
      | .error e => .error e
      | .ok paths => .ok (path :: paths)

/-- `_generate_panel_with_multi_joints`: fails when the panel has no entry
in the joint configuration table, then generates each requested edge. -/
def generatePanelWithMultiJoints (single : Bool) (F t kerf : ℚ) (panel : String)
    (edges : List (String × ℚ)) : Except String (List (List (ℚ × ℚ))) :=
  if panel ∈ configPanels then
    generatePanelEdges single F t kerf panel 0 edges
  else .error ("No configuration found for panel: " ++ panel)

/-! ## 2D layout packer
(`src/geometry.py`: `calculate_layout_positions`, `_find_best_position`,
`_find_best_position_2d`, `_position_is_valid`, `_rectangles_overlap`) -/

/-- A placed layout rectangle: origin plus dimensions. -/
structure Rect where
  x : ℚ
  y : ℚ
  w : ℚ
  h : ℚ
deriving DecidableEq, Repr

/-- `_rectangles_overlap`: two rectangles overlap unless one of the four
separation conditions (with the required spacing) holds. -/
def rectangles_overlap (r1 r2 : Rect) (spacing : ℚ) : Bool :=
  let cond1 := decide (r1.x + r1.w + spacing ≤ r2.x)
  let cond2 := decide (r2.x + r2.w + spacing ≤ r1.x)
  let cond3 := decide (r1.y + r1.h + spacing ≤ r2.y)
  let cond4 := decide (r2.y + r2.h + spacing ≤ r1.y)
  ! (cond1 || cond2 || cond3 || cond4)

/-- `_position_is_valid`: a candidate position is valid when the new
rectangle overlaps (with spacing) no already placed rectangle. -/
def position_is_valid (x y width height : ℚ) (placed : List Rect)
    (spacing : ℚ) : Bool :=
  placed.all fun r => ! rectangles_overlap ⟨x, y, width, height⟩ r spacing

/-- Python `max(x + w for ...)` over placed rectangles (the sources guard
the empty case, defaulting to `0`). -/
def maxRight : List Rect → ℚ
  | [] => 0
  | r :: rest => rest.foldl (fun m s => max m (s.x + s.w)) (r.x + r.w)

/-- The comparison key of both position finders: minimise `y`, then `x`
(Python `min(..., key=lambda p: (p[1], p[0]))`). -/
def posLt (p q : ℚ × ℚ) : Bool :=
  decide (p.2 < q.2 ∨ (p.2 = q.2 ∧ p.1 < q.1))

/-- Python `min` with the `(y, x)` key: the first element with the
(lexicographically) minimal key. -/
def pickMinPos (a : ℚ × ℚ) (rest : List (ℚ × ℚ)) : ℚ × ℚ :=
  rest.foldl (fun best c => if posLt c best then c else best) a

/-- `_find_best_position`: candidate positions are the origin and, for
each placed rectangle, its right and bottom edges; among valid candidates
the lowest-then-leftmost wins, and when none is valid the rectangle is
placed to the right of everything. -/
def find_best_position (width height : ℚ) (placed : List Rect)
    (spacing : ℚ) : ℚ × ℚ :=
  if placed.isEmpty then (0, 0)
  else
    let candidates := (0, 0) :: placed.flatMap fun r =>
      [(r.x + r.w + spacing, r.y), (r.x, r.y + r.h + spacing)]
    let valid := candidates.filter fun p =>
      position_is_valid p.1 p.2 width height placed spacing
    match valid with
    | [] => (maxRight placed + spacing, 0)
    | a :: rest => pickMinPos a rest

/-- `_find_best_position_2d`: the candidate set extended with
bottom-right corners and skyline positions, a hard width filter, and
`none` when no candidate fits.  The Python `list(set(...))`
deduplication is not modelled: its iteration order is unspecified and the
subsequent `min` with the `(y, x)` key is invariant under duplication and
reordering of equal-key (hence equal) pairs. -/
def find_best_position_2d (width height : ℚ) (placed : List Rect)
    (spacing material_width : ℚ) : Option (ℚ × ℚ) :=
  if placed.isEmpty then
    if width ≤ material_width then some (0, 0) else none
  else
    let candidates := ((0, 0) :: placed.flatMap fun r =>
      [(r.x + r.w + spacing, r.y), (r.x, r.y + r.h + spacing),
       (r.x + r.w + spacing, r.y + r.h + spacing)]) ++
      (placed.flatMap fun r =>
        (r.x, r.y + r.h + spacing) ::
          (if r.x + r.w + spacing < material_width then
            [(r.x + r.w + spacing, r.y + r.h + spacing)]
          else []))
    let valid := candidates.filter fun p =>
      decide (p.1 + width ≤ material_width) &&
        position_is_valid p.1 p.2 width height placed spacing
    match valid with
    | [] => none
    | a :: rest => some (pickMinPos a rest)

/-- The per-panel position choice of `calculate_layout_positions`: the
best 2D position when one exists, otherwise the simple finder's answer
(the `if best_pos is None` fallback). -/
def chosenPos (spacing material_width width height : ℚ)
    (placed : List Rect) : ℚ × ℚ :=
  match find_best_position_2d width height placed spacing material_width with
  | some p => p
  | none => find_best_position width height placed spacing

/-- The placement loop of `calculate_layout_positions`: place each sorted
panel at the chosen position and append it to the placed list. -/
def packPanels (spacing material_width : ℚ) :
    List (String × ℚ × ℚ) → List (String × Rect) → List (String × Rect)
  | [], acc => acc
  | (name, width, height) :: rest, acc =>
    let placed := acc.map (·.2)
    let pos := chosenPos spacing material_width width height placed
    packPanels spacing material_width rest
      (acc ++ [(name, ⟨pos.1, pos.2, width, height⟩)])

/-- `a` sorts no later than `b` in `calculate_layout_positions`' order:
height descending, then area descending (Python
`sorted(..., key=lambda x: (height, area), reverse=True)`). -/
def panelBefore (a b : String × ℚ × ℚ) : Bool :=
  decide (b.2.2 < a.2.2 ∨ (b.2.2 = a.2.2 ∧ b.2.1 * b.2.2 ≤ a.2.1 * a.2.2))

/-- Stable insertion of an element that preceded the (already sorted) rest
of the input: placed before the first element it does not sort after. -/
def insertSorted (a : String × ℚ × ℚ) :
    List (String × ℚ × ℚ) → List (String × ℚ × ℚ)
  | [] => [a]
  | b :: l => if panelBefore a b then a :: b :: l else b :: insertSorted a l

/-- The sort of `calculate_layout_positions`: by height first, then area,
descending, stable.  Python's `sorted` is a stable sort for this total
preorder, and any stable sort for a total preorder determines the output
uniquely, so the insertion sort below computes the same list. -/
def sortPanels (panels : List (String × ℚ × ℚ)) : List (String × ℚ × ℚ) :=
  panels.foldr insertSorted []

/-- `calculate_layout_positions`: reject any panel wider than the material
width, sort, pack, and reject a layout whose bounding width exceeds the
material width.  Panels are given as (name, width, height); the result
maps each panel to its placed rectangle (the Python function returns the
top-left `Point` of each; the rectangle carries it together with the
panel's dimensions). -/
def calculate_layout_positions (panels : List (String × ℚ × ℚ))
    (spacing material_width : ℚ) : Except String (List (String × Rect)) :=
  match panels.find? (fun p => decide (material_width < p.2.1)) with
  | some p => .error ("Panel " ++ p.1 ++ " width exceeds material width")
  | none =>
    let min_spacing := max spacing 2
    let placed := packPanels min_spacing material_width (sortPanels panels) []
    let rects := placed.map (·.2)
    if rects.isEmpty then .ok placed
    else if material_width < maxRight rects then
      .error "Layout width exceeds material width"
    else .ok placed

/-! ## Helper lemmas on the joint distribution -/

lemma buildPositions_length (F gap : ℚ) :
    ∀ (n : ℕ) (cur : ℚ), (buildPositions F gap n cur).length = n
  | 0, _ => rfl
  | n + 1, cur => by
    simp only [buildPositions, List.length_cons, buildPositions_length F gap n]

lemma buildPositions_head (F gap : ℚ) (n : ℕ) (cur : ℚ) :
    (buildPositions F gap (n + 1) cur).head? = some (cur, cur + F) := rfl

lemma buildPositions_getLast (F gap : ℚ) :
    ∀ (n : ℕ) (cur : ℚ), (buildPositions F gap (n + 1) cur).getLast? =
      some (cur + n * (F + gap), cur + n * (F + gap) + F)
  | 0, cur => by simp [buildPositions]
  | n + 1, cur => by
    rw [show buildPositions F gap (n + 1 + 1) cur =
        (cur, cur + F) :: buildPositions F gap (n + 1) (cur + F + gap) from rfl]
    rw [show buildPositions F gap (n + 1) (cur + F + gap) =
        (cur + F + gap, cur + F + gap + F) ::
          buildPositions F gap n (cur + F + gap + F + gap) from rfl]
    rw [List.getLast?_cons_cons]
    rw [show (cur + F + gap, cur + F + gap + F) ::
        buildPositions F gap n (cur + F + gap + F + gap) =
        buildPositions F gap (n + 1) (cur + F + gap) from rfl]
    rw [buildPositions_getLast F gap n (cur + F + gap)]
    simp only [Option.some.injEq, Prod.mk.injEq]
    push_cast
    constructor <;> ring

lemma buildPositions_chain (F gap : ℚ) (h : F * 0.3 ≤ gap) :
    ∀ (n : ℕ) (cur : ℚ), List.Chain' (fun a b : ℚ × ℚ => F * 0.3 ≤ b.1 - a.2)
      (buildPositions F gap n cur)
  | 0, _ => by simp [buildPositions]
  | 1, cur => by simp [buildPositions]
  | n + 2, cur => by
    rw [show buildPositions F gap (n + 2) cur =
        (cur, cur + F) :: buildPositions F gap (n + 1) (cur + F + gap) from rfl]
    refine List.chain'_cons'.mpr ⟨?_, buildPositions_chain F gap h (n + 1) (cur + F + gap)⟩
    intro b hb
    rw [buildPositions_head] at hb
    simp only [Option.mem_def, Option.some.injEq] at hb
    subst hb
    simp only
    linarith

lemma buildPositions_shift (F gap o : ℚ) :
    ∀ (n : ℕ) (cur : ℚ), buildPositions F gap n (cur + o) =
      (buildPositions F gap n cur).map (fun q => (q.1 + o, q.2 + o))
  | 0, _ => rfl
  | n + 1, cur => by
    show (cur + o, cur + o + F) :: buildPositions F gap n (cur + o + F + gap) =
      ((cur, cur + F) :: buildPositions F gap n (cur + F + gap)).map
        (fun q => (q.1 + o, q.2 + o))
    rw [List.map_cons]
    congr 1
    · show (cur + o, cur + o + F) = (cur + o, cur + F + o)
      congr 1
      ring
    · rw [show cur + o + F + gap = cur + F + gap + o by ring]
      exact buildPositions_shift F gap o n (cur + F + gap)

/-- Unfolding equation for `calculate_joint_positions` at a count of at
least two, with the Python `max(1, joint_count - 2)` retry visible. -/
lemma cjp_succ_succ (F L offset : ℚ) (n : ℕ) :
    calculate_joint_positions F L offset (n + 2) =
      if (L - ((n : ℚ) + 2) * F) / (((n : ℚ) + 2) + 1) < F * 0.3 then
        calculate_joint_positions F L offset (max 1 n)
      else
        buildPositions F ((L - ((n : ℚ) + 2) * F) / (((n : ℚ) + 2) + 1)) (n + 2)
          ((L - ((n : ℚ) + 2) * F) / (((n : ℚ) + 2) + 1) + offset) := by
  have hc : (((n + 2 : ℕ)) : ℚ) = (n : ℚ) + 2 := by push_cast; ring
  cases n with
  | zero =>
    simp only [calculate_joint_positions, hc, Nat.max_self, Nat.cast_ofNat]
  | succ m =>
    simp only [calculate_joint_positions, hc]
    have hm : max 1 (m + 1) = m + 1 := by omega
    rw [hm]

lemma cjp_one (F L offset : ℚ) :
    calculate_joint_positions F L offset 1 =
      [((L - F) / 2 + offset, (L - F) / 2 + offset + F)] := rfl

/-- All joint positions shift uniformly with the `offset` argument. -/
lemma cjp_shift (F L o : ℚ) :
    ∀ n : ℕ, calculate_joint_positions F L o n =
      (calculate_joint_positions F L 0 n).map (fun q => (q.1 + o, q.2 + o))
  | 0 => by
    simp only [calculate_joint_positions]
    split
    · rw [List.map_cons, List.map_nil]
      congr 2 <;> ring
    · rfl
  | 1 => by
    rw [cjp_one, cjp_one, List.map_cons, List.map_nil]
    congr 2 <;> ring
  | n + 2 => by
    rw [cjp_succ_succ, cjp_succ_succ]
    split
    · exact cjp_shift F L o (max 1 n)
    · rw [show (L - ((n : ℚ) + 2) * F) / (((n : ℚ) + 2) + 1) + o =
          ((L - ((n : ℚ) + 2) * F) / (((n : ℚ) + 2) + 1) + 0) + o by ring]
      rw [buildPositions_shift]
  termination_by n => n
  decreasing_by omega

lemma le_of_pyInt_ge (q : ℚ) (n : ℤ) (hn : 0 < n) (h : n ≤ pyInt q) : (n : ℚ) ≤ q := by
  unfold pyInt at h
  split_ifs at h with hq
  · have hc : ⌈q⌉ ≤ 0 := Int.ceil_le.mpr (by push_cast; linarith)
    omega
  · calc (n : ℚ) ≤ (⌊q⌋ : ℚ) := by exact_mod_cast h
      _ ≤ q := Int.floor_le q

/-- The only values `calculate_optimal_joint_count` returns are 1, 3, 5, 7,
and each multi-joint value implies a lower bound on the edge length. -/
lemma opt_count_cases (single : Bool) (F L : ℚ) (hF : 0 < F) :
    calculate_optimal_joint_count single F L = 1 ∨
    (calculate_optimal_joint_count single F L = 3 ∧ F * 5.6 ≤ L) ∨
    (calculate_optimal_joint_count single F L = 5 ∧ F * 9.2 ≤ L) ∨
    (calculate_optimal_joint_count single F L = 7 ∧ F * 12.8 ≤ L) := by
  have hden : (0 : ℚ) < F + F * 0.8 := by linarith
  simp only [calculate_optimal_joint_count]
  split_ifs with hs hsh h7 h5 h3
  · exact Or.inl rfl
  · exact Or.inl rfl
  · refine Or.inr (Or.inr (Or.inr ⟨rfl, ?_⟩))
    have h7' : (7 : ℤ) ≤ pyInt ((L - F + F * 0.8) / (F + F * 0.8)) :=
      le_trans h7 (min_le_left _ _)
    have hq := le_of_pyInt_ge _ 7 (by norm_num) h7'
    rw [le_div_iff₀ hden] at hq
    linarith
  · refine Or.inr (Or.inr (Or.inl ⟨rfl, ?_⟩))
    have h5' : (5 : ℤ) ≤ pyInt ((L - F + F * 0.8) / (F + F * 0.8)) :=
      le_trans h5 (min_le_left _ _)
    have hq := le_of_pyInt_ge _ 5 (by norm_num) h5'
    rw [le_div_iff₀ hden] at hq
    linarith
  · refine Or.inr (Or.inl ⟨rfl, ?_⟩)
    have h3' : (3 : ℤ) ≤ pyInt ((L - F + F * 0.8) / (F + F * 0.8)) :=
      le_trans h3 (min_le_left _ _)
    have hq := le_of_pyInt_ge _ 3 (by norm_num) h3'
    rw [le_div_iff₀ hden] at hq
    linarith
  · exact Or.inl rfl

lemma cjp_len_one (F L offset : ℚ) :
    (calculate_joint_positions F L offset 1).length = 1 := by
  rw [cjp_one]
  rfl

lemma cjp_len_three (F L offset : ℚ) :
    (calculate_joint_positions F L offset 3).length = 3 ∨
    (calculate_joint_positions F L offset 3).length = 1 := by
  rw [show (3 : ℕ) = 1 + 2 from rfl, cjp_succ_succ]
  split
  · rw [show max 1 1 = 1 from rfl]
    exact Or.inr (cjp_len_one F L offset)
  · rw [buildPositions_length]
    exact Or.inl rfl

lemma cjp_len_five (F L offset : ℚ) :
    (calculate_joint_positions F L offset 5).length = 5 ∨
    (calculate_joint_positions F L offset 5).length = 3 ∨
    (calculate_joint_positions F L offset 5).length = 1 := by
  rw [show (5 : ℕ) = 3 + 2 from rfl, cjp_succ_succ]
  split
  · rw [show max 1 3 = 3 from rfl]
    exact Or.inr (cjp_len_three F L offset)
  · rw [buildPositions_length]
    exact Or.inl rfl

lemma cjp_len_seven (F L offset : ℚ) :
    (calculate_joint_positions F L offset 7).length = 7 ∨
    (calculate_joint_positions F L offset 7).length = 5 ∨
    (calculate_joint_positions F L offset 7).length = 3 ∨
    (calculate_joint_positions F L offset 7).length = 1 := by
  rw [show (7 : ℕ) = 5 + 2 from rfl, cjp_succ_succ]
  split
  · rw [show max 1 5 = 5 from rfl]
    exact Or.inr (cjp_len_five F L offset)
  · rw [buildPositions_length]
    exact Or.inl rfl

/-- The multi-joint case of `calculate_joint_positions` when the equal gap
passes the `0.3 · F` check: joint count is kept, consecutive gaps and the
end gaps all equal the computed gap. -/
lemma cjp_multi_block (F L offset : ℚ) (m : ℕ)
    (hgap : F * 0.3 ≤ (L - ((m : ℚ) + 2) * F) / (((m : ℚ) + 2) + 1)) :
    (calculate_joint_positions F L offset (m + 2)).length = m + 2 ∧
    List.Chain' (fun a b : ℚ × ℚ => F * 0.3 ≤ b.1 - a.2)
      (calculate_joint_positions F L offset (m + 2)) ∧
    (∀ hd ∈ (calculate_joint_positions F L offset (m + 2)).head?,
      offset + F * 0.3 ≤ hd.1) ∧
    (∀ lst ∈ (calculate_joint_positions F L offset (m + 2)).getLast?,
      lst.2 ≤ L + offset - F * 0.3) := by
  set g := (L - ((m : ℚ) + 2) * F) / (((m : ℚ) + 2) + 1) with hg
  have heq : calculate_joint_positions F L offset (m + 2) =
      buildPositions F g (m + 2) (g + offset) := by
    rw [cjp_succ_succ, if_neg (not_lt.mpr hgap)]
  have hne : ((m : ℚ) + 2) + 1 ≠ 0 := by positivity
  have hsum : g * (((m : ℚ) + 2) + 1) = L - ((m : ℚ) + 2) * F := by
    rw [hg]
    field_simp
  rw [heq]
  refine ⟨buildPositions_length F g (m + 2) (g + offset),
    buildPositions_chain F g hgap (m + 2) (g + offset), ?_, ?_⟩
  · intro hd hh
    rw [show m + 2 = (m + 1) + 1 from rfl, buildPositions_head] at hh
    simp only [Option.mem_def, Option.some.injEq] at hh
    subst hh
    simp only
    linarith
  · intro lst hl
    rw [show m + 2 = (m + 1) + 1 from rfl, buildPositions_getLast] at hl
    simp only [Option.mem_def, Option.some.injEq] at hl
    subst hl
    simp only
    push_cast
    linarith

/-! ## Claim theorems -/

/-- C1, counterexample.  The claim asserts that every Male entry of the
joint configuration table mates a Female entry of equal nominal edge
length, including the gable roof edges against the roof panels'
`gable_edge`.  But the table assigns Male both to
`gable_wall_front.roof_right` and to its mate
`roof_panel_right.gable_edge`; and already in the floor group, at
x = 80, y = 60, z = 70, thickness = 3, kerf = 0, the floor's `bottom` edge
(length 80) and its mate `gable_wall_front.bottom` (length 66) differ. -/
theorem c1_reciprocity_counterexample :
    matingEdge "gable_wall_front" "roof_right" = some ("roof_panel_right", "gable_edge") ∧
    jointPolarity "gable_wall_front" "roof_right" = some (some true) ∧
    jointPolarity "roof_panel_right" "gable_edge" = some (some true) ∧
    matingEdge "floor" "bottom" = some ("gable_wall_front", "bottom") ∧
    edgeNominalLength ⟨80, 60, 70, 3, 10, 0⟩ "floor" "bottom" = some 80 ∧
    edgeNominalLength ⟨80, 60, 70, 3, 10, 0⟩ "gable_wall_front" "bottom" = some 66 ∧
    (80 : ℚ) ≠ 66 := by
  refine ⟨by decide, rfl, rfl, by decide, rfl, ?_, by norm_num⟩
  with_unfolding_all decide

/-- C1, amended.  Joint reciprocity (Male mates Female) holds for the
floor↔wall and wall↔gable-wall entries of the table, and nominal lengths
(before kerf) agree for the wall↔gable-wall pairs; the two roof panels'
`gable_edge` entries are reciprocal (right Male, left Female) with equal
nominal length `x + 6·thickness`; the four gable-wall roof edges are all
Male and are matched by the roof panels' internal female cutout entries,
not by the `gable_edge` entries; and the gable-wall `bottom` edge's
nominal length is `y + 2·thickness`, exceeding the floor's `y`-length
edges by `2·thickness` (the floor's `bottom` edge has length `x`). -/
theorem c1_joint_reciprocity_amended (g : Geom) (hk : g.kerf = 0) :
    (∀ pe ∈ ([("floor", "bottom"), ("floor", "right"), ("floor", "top"),
        ("floor", "left"), ("side_wall_left", "right"), ("side_wall_left", "left"),
        ("side_wall_right", "right"), ("side_wall_right", "left")] :
        List (String × String)),
      jointPolarity pe.1 pe.2 = some (some true) ∧
        (matingEdge pe.1 pe.2).bind (fun m => jointPolarity m.1 m.2) =
          some (some false)) ∧
    (edgeNominalLength g "side_wall_left" "right" =
       edgeNominalLength g "gable_wall_front" "left" ∧
     edgeNominalLength g "side_wall_left" "left" =
       edgeNominalLength g "gable_wall_back" "right" ∧
     edgeNominalLength g "side_wall_right" "right" =
       edgeNominalLength g "gable_wall_back" "left" ∧
     edgeNominalLength g "side_wall_right" "left" =
       edgeNominalLength g "gable_wall_front" "right") ∧
    (jointPolarity "roof_panel_right" "gable_edge" = some (some true) ∧
     jointPolarity "roof_panel_left" "gable_edge" = some (some false) ∧
     edgeNominalLength g "roof_panel_right" "gable_edge" =
       edgeNominalLength g "roof_panel_left" "gable_edge") ∧
    ((∀ pe ∈ ([("gable_wall_front", "roof_left"), ("gable_wall_front", "roof_right"),
        ("gable_wall_back", "roof_left"), ("gable_wall_back", "roof_right")] :
        List (String × String)),
      jointPolarity pe.1 pe.2 = some (some true)) ∧
     panelConfig "roof_panel_left" "internal_cutouts" =
       some (.cutouts ["vertical", "vertical"]) ∧
     panelConfig "roof_panel_right" "internal_cutouts" =
       some (.cutouts ["vertical", "vertical"])) ∧
    (edgeNominalLength g "gable_wall_front" "bottom" = some (g.y + 2 * g.thickness) ∧
     edgeNominalLength g "gable_wall_back" "bottom" = some (g.y + 2 * g.thickness) ∧
     edgeNominalLength g "floor" "left" = some g.y ∧
     edgeNominalLength g "floor" "bottom" = some g.x) := by
  have hz : some g.zKerf = some g.z := by rw [Geom.zKerf, hk]; simp
  have hy : g.yKerf = g.y := by rw [Geom.yKerf, hk]; simp
  refine ⟨by decide, ⟨?_, ?_, ?_, ?_⟩, ⟨rfl, rfl, rfl⟩, ⟨by decide, rfl, rfl⟩,
    ?_, ?_, rfl, rfl⟩
  · exact hz
  · exact hz
  · exact hz
  · exact hz
  · show some (g.yKerf + 2 * g.thickness) = some (g.y + 2 * g.thickness)
    rw [hy]
  · show some (g.yKerf + 2 * g.thickness) = some (g.y + 2 * g.thickness)
    rw [hy]

/-- C1 witness: the amended reciprocity theorem applied at the concrete
geometry x = 80, y = 60, z = 70, thickness = 3, finger = 10, kerf = 0. -/
theorem c1_joint_reciprocity_amended_witness :
    jointPolarity "roof_panel_right" "gable_edge" = some (some true) ∧
    jointPolarity "roof_panel_left" "gable_edge" = some (some false) ∧
    edgeNominalLength ⟨80, 60, 70, 3, 10, 0⟩ "roof_panel_right" "gable_edge" =
      edgeNominalLength ⟨80, 60, 70, 3, 10, 0⟩ "roof_panel_left" "gable_edge" :=
  (c1_joint_reciprocity_amended ⟨80, 60, 70, 3, 10, 0⟩ rfl).2.2.1

/-- C5, counterexample.  The claim says gable-wall roof edges always use
exactly one joint regardless of the edge's length; but an edge shorter
than `1.5 · finger_length` (here length 12, finger 10) is emitted as a
straight segment with zero joints. -/
theorem c5_short_roof_edge_counterexample :
    jointPolarity "gable_wall_front" "roof_left" = some (some true) ∧
    edgeEmittedJoints false 10 3 "gable_wall_front" "roof_left" 12 true = [] ∧
    generateMultiJointEdgeFrame false 10 3 0 (-1) "gable_wall_front" "roof_left"
      12 true true = [(12, 0)] ∧
    (edgeEmittedJoints false 10 3 "gable_wall_front" "roof_left" 12 true).length ≠ 1 := by
  refine ⟨rfl, ?_, ?_, ?_⟩ <;> with_unfolding_all decide

/-- C5, amended.  For gable-wall roof edges of length at least
`1.5 · finger_length`, edge generation uses exactly one joint, whatever
length the edge has and whatever count the distribution algorithm would
pick; shorter roof edges are emitted with no joints at all. -/
theorem c5_gable_roof_single_joint_amended (single : Bool) (F t L : ℚ)
    (panel edge : String) (hL : F * 1.5 ≤ L)
    (hp : panel = "gable_wall_front" ∨ panel = "gable_wall_back")
    (he : edge = "roof_left" ∨ edge = "roof_right") :
    (edgeEmittedJoints single F t panel edge L true).length = 1 := by
  have hnl : ¬ (L < F * 1.5) := not_lt.mpr hL
  rcases hp with rfl | rfl <;> rcases he with rfl | rfl <;>
    · simp only [edgeEmittedJoints, edgeJointCount, edgeCalcParams, hnl, if_false]
      norm_num [cjp_one]

/-- C5 witness: a 100-long gable roof edge with finger length 10 gets one
joint (where the distribution algorithm alone would choose five). -/
theorem c5_gable_roof_single_joint_witness :
    (edgeEmittedJoints false 10 3 "gable_wall_front" "roof_left" 100 true).length = 1 ∧
    calculate_optimal_joint_count false 10 100 = 5 :=
  ⟨c5_gable_roof_single_joint_amended false 10 3 100 "gable_wall_front" "roof_left"
      (by norm_num) (Or.inl rfl) (Or.inl rfl),
   by with_unfolding_all decide⟩

/-- C6: gable-wall `bottom` edges place their joints against the floor's
matching edge length `L - 2·thickness` with the joint count computed from
that reduced length, and every joint position is the corresponding
zero-offset position shifted by exactly one thickness; edges shorter than
`1.5 · finger_length` emit no joints at all. -/
theorem c6_gable_bottom_floor_alignment (single : Bool) (F t L : ℚ) (panel : String)
    (hp : panel = "gable_wall_front" ∨ panel = "gable_wall_back") :
    (F * 1.5 ≤ L →
      edgeEmittedJoints single F t panel "bottom" L true =
        (calculate_joint_positions F (L - 2 * t) 0
            (calculate_optimal_joint_count single F (L - 2 * t))).map
          (fun q => (q.1 + t, q.2 + t))) ∧
    (L < F * 1.5 → edgeEmittedJoints single F t panel "bottom" L true = []) := by
  have h1 : edgeEmittedJoints single F t panel "bottom" L true =
      if L < F * 1.5 then [] else
        calculate_joint_positions F (L - 2 * t) t
          (calculate_optimal_joint_count single F (L - 2 * t)) := by
    rcases hp with rfl | rfl <;> rfl
  constructor
  · intro hL
    rw [h1, if_neg (not_lt.mpr hL)]
    exact cjp_shift F (L - 2 * t) t _
  · intro hL
    rw [h1, if_pos hL]

/-- C6 witness: gable bottom edge of length 66, thickness 3, finger 10:
joints are computed for the floor length 60 (three joints) and each is
shifted by the thickness 3. -/
theorem c6_gable_bottom_floor_alignment_witness :
    edgeEmittedJoints false 10 3 "gable_wall_front" "bottom" 66 true =
      (calculate_joint_positions 10 (66 - 2 * 3) 0
          (calculate_optimal_joint_count false 10 (66 - 2 * 3))).map
        (fun q => (q.1 + 3, q.2 + 3)) :=
  (c6_gable_bottom_floor_alignment false 10 3 66 "gable_wall_front"
    (Or.inl rfl)).1 (by norm_num)

/-- C7, counterexample.  The claim says the direction resolver rejects
unrecognized (panel, polarity) combinations with an exception; the code's
final `else` instead assigns the default outward direction `-1` silently,
so an unknown panel resolves exactly like a recognized one. -/
theorem c7_direction_counterexample :
    getJointDirection "not_a_known_panel" "mystery_edge" 3 true = -1 ∧
    getJointDirection "not_a_known_panel" "mystery_edge" 3 false = 1 ∧
    getJointDirection "floor" "bottom" 0 true = -1 := by
  refine ⟨?_, ?_, ?_⟩ <;> with_unfolding_all decide

/-- C7, amended.  The resolver yields the fixed outward sign `-1` for male
joints and the opposite sign `1` for female joints uniformly for every
panel family — including unrecognized panel names, which silently receive
the same default outward direction rather than an exception. -/
theorem c7_direction_resolver_amended (panel edge : String) (i : ℕ) :
    getJointDirection panel edge i true = -1 ∧
    getJointDirection panel edge i false = 1 := by
  constructor <;>
    · simp only [getJointDirection]
      split_ifs <;> simp_all

/-- C8, counterexample.  The claim says panel generation raises a
`FingerJointError` when a requested edge name is absent from the panel's
entry; but generating the `floor` panel with the unknown edge name
`front_porch` succeeds, silently emitting a smooth (straight) edge. -/
theorem c8_missing_edge_counterexample :
    panelConfig "floor" "front_porch" = none ∧
    generatePanelWithMultiJoints false 10 3 0 "floor" [("front_porch", 100)] =
      .ok [[(100, 0)]] := by
  exact ⟨rfl, rfl⟩

lemma generatePanelEdges_ok_of_good (single : Bool) (F t kerf : ℚ) (panel : String) :
    ∀ (i : ℕ) (edges : List (String × ℚ)),
      (∀ p ∈ edges, ∀ l, panelConfig panel p.1 ≠ some (.cutouts l)) →
      ∃ v, generatePanelEdges single F t kerf panel i edges = .ok v
  | _, [], _ => ⟨[], rfl⟩
  | i, (en, len) :: rest, h => by
    obtain ⟨v, hv⟩ := generatePanelEdges_ok_of_good single F t kerf panel (i + 1) rest
      (fun p hp => h p (List.mem_cons_of_mem _ hp))
    rw [generatePanelEdges]
    cases hpc : panelConfig panel en with
    | none => rw [hv]; exact ⟨_, rfl⟩
    | some cv =>
      cases cv with
      | pol p =>
        cases p with
        | none => rw [hv]; exact ⟨_, rfl⟩
        | some b => cases b <;> rw [hv] <;> exact ⟨_, rfl⟩
      | cutouts l => exact absurd hpc (h (en, len) (List.mem_cons_self _ _) l)

lemma generatePanelEdges_error_of_bad (single : Bool) (F t kerf : ℚ) (panel : String) :
    ∀ (i : ℕ) (edges : List (String × ℚ)),
      (∃ p ∈ edges, ∃ l, panelConfig panel p.1 = some (.cutouts l)) →
      ∃ e, generatePanelEdges single F t kerf panel i edges = .error e
  | i, (en, len) :: rest, h => by
    rw [generatePanelEdges]
    cases hpc : panelConfig panel en with
    | none =>
      obtain ⟨e, he⟩ := generatePanelEdges_error_of_bad single F t kerf panel (i + 1) rest
        (by
          rcases h with ⟨p, hp, l, hl⟩
          rcases List.mem_cons.mp hp with rfl | hp'
          · exact absurd hl (by rw [hpc]; exact fun hc => Option.noConfusion hc)
          · exact ⟨p, hp', l, hl⟩)
      rw [he]
      exact ⟨_, rfl⟩
    | some cv =>
      cases cv with
      | pol p =>
        have hrest : ∃ p ∈ rest, ∃ l, panelConfig panel p.1 = some (.cutouts l) := by
          rcases h with ⟨q, hq, l, hl⟩
          rcases List.mem_cons.mp hq with rfl | hq'
          · rw [hpc] at hl
            exact absurd (Option.some.inj hl) (fun hc => ConfigVal.noConfusion hc)
          · exact ⟨q, hq', l, hl⟩
        obtain ⟨e, he⟩ := generatePanelEdges_error_of_bad single F t kerf panel
          (i + 1) rest hrest
        cases p with
        | none => rw [he]; exact ⟨_, rfl⟩
        | some b => cases b <;> rw [he] <;> exact ⟨_, rfl⟩
      | cutouts l => exact ⟨_, rfl⟩

/-- C8, amended.  Panel generation fails with a `FingerJointError` if and
only if the requested panel has no entry in the joint configuration table
or some requested edge maps to an invalid polarity value (in this table,
the `internal_cutouts` lists of the roof panels).  A requested edge name
absent from the panel's entry does NOT raise: it is silently generated as
a smooth edge. -/
theorem c8_error_conditions_amended (single : Bool) (F t kerf : ℚ)
    (panel : String) (edges : List (String × ℚ)) :
    (generatePanelWithMultiJoints single F t kerf panel edges).isOk = false ↔
      panel ∉ configPanels ∨
        ∃ p ∈ edges, ∃ l, panelConfig panel p.1 = some (.cutouts l) := by
  unfold generatePanelWithMultiJoints
  by_cases hp : panel ∈ configPanels
  · rw [if_pos hp]
    constructor
    · intro hbad
      by_contra hcon
      push_neg at hcon
      obtain ⟨v, hv⟩ := generatePanelEdges_ok_of_good single F t kerf panel 0 edges
        (fun p hmem l => hcon.2 p hmem l)
      rw [hv] at hbad
      exact Bool.noConfusion hbad
    · intro h
      rcases h with h | h
      · exact absurd hp h
      · obtain ⟨e, he⟩ := generatePanelEdges_error_of_bad single F t kerf panel 0 edges h
        rw [he]
        rfl
  · rw [if_neg hp]
    simp only [Except.isOk]
    exact ⟨fun _ => Or.inl hp, fun _ => rfl⟩

/-- C10: any edge shorter than `1.5 · finger_length` that is configured
with a joint (male or female) is emitted as a single straight segment to
the end point — in frame coordinates, the single command `(L, 0)` — with
no joints and no error (the generator is a total function). -/
theorem c10_short_edge_straight (single : Bool) (F t kerf L : ℚ) (dir : ℤ)
    (panel edge : String) (is_male : Bool) (hL : L < F * 1.5) :
    generateMultiJointEdgeFrame single F t kerf dir panel edge L true is_male =
      [(L, 0)] ∧
    edgeEmittedJoints single F t panel edge L true = [] := by
  constructor
  · simp [generateMultiJointEdgeFrame, hL]
  · simp [edgeEmittedJoints, hL]

/-- C10 witness: a male-configured edge of length 12 with finger length 10
is emitted as the single straight segment to its end point. -/
theorem c10_short_edge_straight_witness :
    generateMultiJointEdgeFrame false 10 3 0 (-1) "side_wall_left" "bottom"
      12 true true = [(12, 0)] ∧
    edgeEmittedJoints false 10 3 "side_wall_left" "bottom" 12 true = [] :=
  c10_short_edge_straight false 10 3 0 12 (-1) "side_wall_left" "bottom" true
    (by norm_num)


/-- C2: for any edge length `L ≥ 2.5 · F` with single-joint mode off, the
joint count produced by `calculate_optimal_joint_count` followed by the
gap-check reduction in `calculate_joint_positions` lies in {1, 3, 5, 7}:
it is odd and never exceeds 7. -/
theorem c2_joint_count_odd_set (F L offset : ℚ) (hF : 0 < F) (hL : F * 2.5 ≤ L) :
    ((calculate_joint_positions F L offset
        (calculate_optimal_joint_count false F L)).length = 1 ∨
     (calculate_joint_positions F L offset
        (calculate_optimal_joint_count false F L)).length = 3 ∨
     (calculate_joint_positions F L offset
        (calculate_optimal_joint_count false F L)).length = 5 ∨
     (calculate_joint_positions F L offset
        (calculate_optimal_joint_count false F L)).length = 7) ∧
    (calculate_joint_positions F L offset
        (calculate_optimal_joint_count false F L)).length % 2 = 1 ∧
    (calculate_joint_positions F L offset
        (calculate_optimal_joint_count false F L)).length ≤ 7 := by
  have hmem : (calculate_joint_positions F L offset
        (calculate_optimal_joint_count false F L)).length = 1 ∨
      (calculate_joint_positions F L offset
        (calculate_optimal_joint_count false F L)).length = 3 ∨
      (calculate_joint_positions F L offset
        (calculate_optimal_joint_count false F L)).length = 5 ∨
      (calculate_joint_positions F L offset
        (calculate_optimal_joint_count false F L)).length = 7 := by
    rcases opt_count_cases false F L hF with h | ⟨h, _⟩ | ⟨h, _⟩ | ⟨h, _⟩ <;> rw [h]
    · exact Or.inl (cjp_len_one F L offset)
    · rcases cjp_len_three F L offset with h3 | h3 <;> rw [h3] <;> norm_num
    · rcases cjp_len_five F L offset with h5 | h5 | h5 <;> rw [h5] <;> norm_num
    · rcases cjp_len_seven F L offset with h7 | h7 | h7 | h7 <;> rw [h7] <;> norm_num
  refine ⟨hmem, ?_, ?_⟩ <;> rcases hmem with h | h | h | h <;> rw [h] <;> norm_num

/-- C2 witness: the joint-count property at L = 100, F = 10, offset 0
(the optimal count is 5 and no reduction occurs). -/
theorem c2_joint_count_odd_set_witness :
    ((calculate_joint_positions 10 100 0
        (calculate_optimal_joint_count false 10 100)).length = 1 ∨
     (calculate_joint_positions 10 100 0
        (calculate_optimal_joint_count false 10 100)).length = 3 ∨
     (calculate_joint_positions 10 100 0
        (calculate_optimal_joint_count false 10 100)).length = 5 ∨
     (calculate_joint_positions 10 100 0
        (calculate_optimal_joint_count false 10 100)).length = 7) ∧
    (calculate_joint_positions 10 100 0
        (calculate_optimal_joint_count false 10 100)).length % 2 = 1 ∧
    (calculate_joint_positions 10 100 0
        (calculate_optimal_joint_count false 10 100)).length ≤ 7 :=
  c2_joint_count_odd_set 10 100 0 (by norm_num) (by norm_num)

/-- C3, counterexample.  The claim covers every positive edge length,
including the single-joint case; at L = 5, F = 10 the optimal count is 1,
but the single centered joint starts at -2.5 (outside the edge), total
coverage 10 exceeds L = 5, and the gap before the first joint is far below
`0.3 · F`. -/
theorem c3_coverage_gap_counterexample :
    calculate_optimal_joint_count false 10 5 = 1 ∧
    calculate_joint_positions 10 5 0 1 = [(-(5 / 2 : ℚ), 15 / 2)] ∧
    ¬ (((calculate_joint_positions 10 5 0 1).length : ℚ) * 10 ≤ 5) ∧
    (-(5 / 2 : ℚ)) - 0 < 10 * 0.3 := by
  refine ⟨?_, ?_, ?_, ?_⟩ <;> with_unfolding_all decide

/-- C3, amended.  For finger length `F > 0` and edge length
`L ≥ 1.6 · F` (so that even the centered single joint keeps its end gaps
at `0.3 · F`), the joint set computed by `calculate_joint_positions` from
any count produced by `calculate_optimal_joint_count` (either mode,
including the single-joint case) keeps the full count (no reduction is
needed), total coverage `count · F` never exceeds `L`, consecutive joints
are separated by at least `0.3 · F`, and the first/last joints keep at
least `0.3 · F` clear of the (offset-shifted) edge ends.  The reduction
loop itself terminates by construction: the embedded
`calculate_joint_positions` is a total function whose retry argument
strictly decreases, staying odd and never below 1. -/
theorem c3_coverage_and_gaps_amended (single : Bool) (F L offset : ℚ)
    (hF : 0 < F) (hL : F * 1.6 ≤ L) :
    (calculate_joint_positions F L offset
        (calculate_optimal_joint_count single F L)).length =
      calculate_optimal_joint_count single F L ∧
    ((calculate_joint_positions F L offset
        (calculate_optimal_joint_count single F L)).length : ℚ) * F ≤ L ∧
    List.Chain' (fun a b : ℚ × ℚ => F * 0.3 ≤ b.1 - a.2)
      (calculate_joint_positions F L offset
        (calculate_optimal_joint_count single F L)) ∧
    (∀ hd ∈ (calculate_joint_positions F L offset
        (calculate_optimal_joint_count single F L)).head?,
      offset + F * 0.3 ≤ hd.1) ∧
    (∀ lst ∈ (calculate_joint_positions F L offset
        (calculate_optimal_joint_count single F L)).getLast?,
      lst.2 ≤ L + offset - F * 0.3) := by
  rcases opt_count_cases single F L hF with h | ⟨h, hb⟩ | ⟨h, hb⟩ | ⟨h, hb⟩ <;> rw [h]
  · rw [cjp_one]
    refine ⟨rfl, by norm_num; linarith, List.chain'_singleton _, ?_, ?_⟩
    · intro hd hh
      simp only [List.head?_cons, Option.mem_def, Option.some.injEq] at hh
      subst hh
      simp only
      linarith
    · intro lst hl
      simp only [List.getLast?_singleton, Option.mem_def, Option.some.injEq] at hl
      subst hl
      simp only
      linarith
  · have hgap : F * 0.3 ≤ (L - ((1 : ℚ) + 2) * F) / (((1 : ℚ) + 2) + 1) := by
      rw [le_div_iff₀ (by norm_num)]
      linarith
    obtain ⟨h1, h2, h3, h4⟩ := cjp_multi_block F L offset 1 hgap
    rw [show (3 : ℕ) = 1 + 2 from rfl]
    exact ⟨h1, by rw [h1]; push_cast; linarith, h2, h3, h4⟩
  · have hgap : F * 0.3 ≤ (L - ((3 : ℚ) + 2) * F) / (((3 : ℚ) + 2) + 1) := by
      rw [le_div_iff₀ (by norm_num)]
      linarith
    obtain ⟨h1, h2, h3, h4⟩ := cjp_multi_block F L offset 3 hgap
    rw [show (5 : ℕ) = 3 + 2 from rfl]
    exact ⟨h1, by rw [h1]; push_cast; linarith, h2, h3, h4⟩
  · have hgap : F * 0.3 ≤ (L - ((5 : ℚ) + 2) * F) / (((5 : ℚ) + 2) + 1) := by
      rw [le_div_iff₀ (by norm_num)]
      linarith
    obtain ⟨h1, h2, h3, h4⟩ := cjp_multi_block F L offset 5 hgap
    rw [show (7 : ℕ) = 5 + 2 from rfl]
    exact ⟨h1, by rw [h1]; push_cast; linarith, h2, h3, h4⟩

/-- C3 witness: coverage and gap properties at L = 100, F = 10,
offset 0, multi-joint mode. -/
theorem c3_coverage_and_gaps_witness :
    (calculate_joint_positions 10 100 0
        (calculate_optimal_joint_count false 10 100)).length =
      calculate_optimal_joint_count false 10 100 ∧
    ((calculate_joint_positions 10 100 0
        (calculate_optimal_joint_count false 10 100)).length : ℚ) * 10 ≤ 100 :=
  ⟨(c3_coverage_and_gaps_amended false 10 100 0 (by norm_num) (by norm_num)).1,
   (c3_coverage_and_gaps_amended false 10 100 0 (by norm_num) (by norm_num)).2.1⟩


/-! ## Helper lemmas on the layout packer -/

lemma rectangles_overlap_symm (r1 r2 : Rect) (s : ℚ) :
    rectangles_overlap r1 r2 s = rectangles_overlap r2 r1 s := by
  simp only [rectangles_overlap]
  by_cases h1 : r1.x + r1.w + s ≤ r2.x <;>
    by_cases h2 : r2.x + r2.w + s ≤ r1.x <;>
    by_cases h3 : r1.y + r1.h + s ≤ r2.y <;>
    by_cases h4 : r2.y + r2.h + s ≤ r1.y <;>
    simp [h1, h2, h3, h4]

lemma position_is_valid_no_overlap (x y w h : ℚ) (placed : List Rect) (s : ℚ)
    (hv : position_is_valid x y w h placed s = true) :
    ∀ r ∈ placed, rectangles_overlap r ⟨x, y, w, h⟩ s = false := by
  intro r hr
  have := List.all_eq_true.mp hv r hr
  rw [Bool.not_eq_true'] at this
  rw [rectangles_overlap_symm]
  exact this

lemma le_maxRight_foldl (init : ℚ) :
    ∀ (l : List Rect), init ≤ l.foldl (fun m r => max m (r.x + r.w)) init ∧
      ∀ r ∈ l, r.x + r.w ≤ l.foldl (fun m r => max m (r.x + r.w)) init := by
  intro l
  induction l generalizing init with
  | nil => exact ⟨le_refl _, by simp⟩
  | cons a l ih =>
    obtain ⟨h1, h2⟩ := ih (max init (a.x + a.w))
    refine ⟨le_trans (le_max_left _ _) h1, ?_⟩
    intro r hr
    rcases List.mem_cons.mp hr with rfl | hr'
    · exact le_trans (le_max_right _ _) h1
    · exact h2 r hr'

lemma le_maxRight (l : List Rect) : ∀ r ∈ l, r.x + r.w ≤ maxRight l := by
  intro r hr
  cases l with
  | nil => cases hr
  | cons a rest =>
    rw [maxRight]
    rcases List.mem_cons.mp hr with rfl | hr'
    · exact (le_maxRight_foldl (r.x + r.w) rest).1
    · exact (le_maxRight_foldl (a.x + a.w) rest).2 r hr'

lemma fallback_no_overlap (placed : List Rect) (s w h : ℚ) :
    ∀ r ∈ placed,
      rectangles_overlap r ⟨maxRight placed + s, 0, w, h⟩ s = false := by
  intro r hr
  have hc : r.x + r.w + s ≤ maxRight placed + s := by
    linarith [le_maxRight placed r hr]
  simp only [rectangles_overlap]
  simp [hc]

lemma pickMinPos_mem : ∀ (rest : List (ℚ × ℚ)) (a : ℚ × ℚ),
    pickMinPos a rest ∈ a :: rest
  | [], a => List.mem_cons_self _ _
  | b :: l, a => by
    have hstep : pickMinPos a (b :: l) =
        pickMinPos (if posLt b a then b else a) l := rfl
    rw [hstep]
    have := pickMinPos_mem l (if posLt b a then b else a)
    rcases List.mem_cons.mp this with heq | hmem
    · rw [heq]
      split
      · exact List.mem_cons_of_mem _ (List.mem_cons_self _ _)
      · exact List.mem_cons_self _ _
    · exact List.mem_cons_of_mem _ (List.mem_cons_of_mem _ hmem)

lemma find_best_position_2d_valid (w h : ℚ) (placed : List Rect)
    (s W : ℚ) (p : ℚ × ℚ)
    (hp : find_best_position_2d w h placed s W = some p) :
    position_is_valid p.1 p.2 w h placed s = true := by
  simp only [find_best_position_2d] at hp
  split at hp
  · rename_i hemp
    rw [List.isEmpty_iff] at hemp
    subst hemp
    rfl
  · split at hp
    · exact absurd hp (by simp)
    · rename_i a rest hval
      simp only [Option.some.injEq] at hp
      subst hp
      have hmem : pickMinPos a rest ∈ a :: rest := pickMinPos_mem rest a
      rw [← hval] at hmem
      have hpred := (List.mem_filter.mp hmem).2
      simp only [Bool.and_eq_true] at hpred
      exact hpred.2

lemma find_best_position_spec (w h : ℚ) (placed : List Rect) (s : ℚ) :
    position_is_valid (find_best_position w h placed s).1
        (find_best_position w h placed s).2 w h placed s = true ∨
      find_best_position w h placed s = (maxRight placed + s, 0) := by
  simp only [find_best_position]
  split
  · rename_i hemp
    rw [List.isEmpty_iff] at hemp
    subst hemp
    exact Or.inl rfl
  · split
    · exact Or.inr rfl
    · rename_i a rest hval
      left
      have hmem : pickMinPos a rest ∈ a :: rest := pickMinPos_mem rest a
      rw [← hval] at hmem
      exact (List.mem_filter.mp hmem).2

/-- The chosen position never overlaps (with spacing) any already placed
rectangle: valid candidates are overlap-checked, and the simple finder's
right-of-everything fallback clears every placed rectangle as well. -/
lemma chosenPos_no_overlap (s W w h : ℚ) (placed : List Rect) :
    ∀ r ∈ placed, rectangles_overlap r
      ⟨(chosenPos s W w h placed).1, (chosenPos s W w h placed).2, w, h⟩
      s = false := by
  intro r hr
  unfold chosenPos
  cases hfind : find_best_position_2d w h placed s W with
  | some p =>
    exact position_is_valid_no_overlap p.1 p.2 w h placed s
      (find_best_position_2d_valid w h placed s W p hfind) r hr
  | none =>
    rcases find_best_position_spec w h placed s with hv | hfb
    · exact position_is_valid_no_overlap _ _ w h placed s hv r hr
    · rw [hfb]
      exact fallback_no_overlap placed s w h r hr

/-- Every rectangle appended by the packing loop is separated (with
spacing) from every rectangle already placed, so pairwise non-overlap is
an invariant of the loop. -/
lemma packPanels_pairwise (s W : ℚ) (items : List (String × ℚ × ℚ)) :
    ∀ (acc : List (String × Rect)),
      (acc.map (·.2)).Pairwise (fun a b => rectangles_overlap a b s = false) →
      ((packPanels s W items acc).map (·.2)).Pairwise
        (fun a b => rectangles_overlap a b s = false) := by
  induction items with
  | nil =>
    intro acc hacc
    simpa only [packPanels] using hacc
  | cons hd rest ih =>
    obtain ⟨name, w, h⟩ := hd
    intro acc hacc
    simp only [packPanels]
    apply ih
    rw [List.map_append, List.pairwise_append]
    refine ⟨hacc, List.pairwise_singleton _ _, ?_⟩
    intro a ha b hb
    simp only [List.map_cons, List.map_nil, List.mem_singleton] at hb
    subst hb
    have hcp := chosenPos_no_overlap s W w h (List.map (fun x => x.2) acc) a ha
    generalize chosenPos s W w h (List.map (fun x => x.2) acc) = pos at hcp ⊢
    exact hcp

/-- A successful run of `calculate_layout_positions` returns exactly the
packing-loop placement, and the final bounding-width check passed. -/
lemma calculate_layout_positions_ok_elim (panels : List (String × ℚ × ℚ))
    (spacing W : ℚ) (out : List (String × Rect))
    (hok : calculate_layout_positions panels spacing W = .ok out) :
    out = packPanels (max spacing 2) W (sortPanels panels) [] ∧
    (((packPanels (max spacing 2) W (sortPanels panels) []).map (·.2)).isEmpty = true ∨
      ¬ W < maxRight ((packPanels (max spacing 2) W (sortPanels panels) []).map (·.2))) := by
  cases hfind : panels.find? (fun p => decide (W < p.2.1)) with
  | some q =>
    rw [calculate_layout_positions, hfind] at hok
    exact absurd hok (by simp)
  | none =>
    have hok2 : (if ((packPanels (max spacing 2) W
          (sortPanels panels) []).map (·.2)).isEmpty = true then
        (Except.ok (packPanels (max spacing 2) W (sortPanels panels) []) :
          Except String (List (String × Rect)))
      else if W < maxRight ((packPanels (max spacing 2) W
          (sortPanels panels) []).map (·.2)) then
        Except.error "Layout width exceeds material width"
      else Except.ok (packPanels (max spacing 2) W (sortPanels panels) [])) =
        Except.ok out := by
      rw [calculate_layout_positions, hfind] at hok
      exact hok
    split_ifs at hok2 with h1 h2 <;>
      first
        | exact ⟨(Except.ok.inj hok2).symm, Or.inl h1⟩
        | exact ⟨(Except.ok.inj hok2).symm, Or.inr h2⟩
        | exact ⟨rfl, Or.inl h1⟩
        | exact ⟨rfl, Or.inr h2⟩
        | cases hok2

/-- C4: any set of rectangles returned by the layout packer is pairwise
separated: for every pair, one of the four separation conditions of
`_rectangles_overlap` (expanded by the effective minimum spacing
`max(spacing, 2)`) holds, i.e. the overlap test is false. -/
theorem c4_packer_no_overlap (panels : List (String × ℚ × ℚ))
    (spacing W : ℚ) (out : List (String × Rect))
    (hok : calculate_layout_positions panels spacing W = .ok out) :
    (out.map (·.2)).Pairwise
      (fun a b => rectangles_overlap a b (max spacing 2) = false) := by
  obtain ⟨rfl, -⟩ := calculate_layout_positions_ok_elim panels spacing W out hok
  exact packPanels_pairwise (max spacing 2) W (sortPanels panels) []
    List.Pairwise.nil

/-- C4 witness: the packer on two concrete panels returns a placement, and
the separation property holds for it. -/
theorem c4_packer_no_overlap_witness :
    (([("a", Rect.mk 0 0 10 10), ("b", Rect.mk 12 0 20 5)] :
        List (String × Rect)).map (·.2)).Pairwise
      (fun a b => rectangles_overlap a b (max 0 2) = false) :=
  c4_packer_no_overlap [("a", 10, 10), ("b", 20, 5)] 0 100
    [("a", Rect.mk 0 0 10 10), ("b", Rect.mk 12 0 20 5)]
    (by with_unfolding_all rfl)

/-- C9: every placement returned by the layout packer satisfies the hard
sheet-width limit `x + width ≤ W` for every placed rectangle; and whenever
some panel's width alone exceeds `W`, the packer raises a `GeometryError`
(no placement is returned). -/
theorem c9_packer_width_limit (panels : List (String × ℚ × ℚ))
    (spacing W : ℚ) :
    (∀ out, calculate_layout_positions panels spacing W = .ok out →
      ∀ pr ∈ out, pr.2.x + pr.2.w ≤ W) ∧
    (∀ p ∈ panels, W < p.2.1 →
      ∃ e, calculate_layout_positions panels spacing W = .error e) := by
  constructor
  · intro out hok pr hpr
    obtain ⟨rfl, hdisj⟩ := calculate_layout_positions_ok_elim panels spacing W out hok
    rcases hdisj with hemp | hwide
    · rw [List.isEmpty_iff, List.map_eq_nil_iff] at hemp
      rw [hemp] at hpr
      cases hpr
    · have hmem : pr.2 ∈ (packPanels (max spacing 2) W
          (sortPanels panels) []).map (·.2) := List.mem_map_of_mem _ hpr
      have hle := le_maxRight _ pr.2 hmem
      linarith [not_lt.mp hwide]
  · intro p hp hw
    have hsome : (panels.find? (fun q => decide (W < q.2.1))).isSome := by
      rw [List.find?_isSome]
      exact ⟨p, hp, by simpa using hw⟩
    obtain ⟨q, hq⟩ := Option.isSome_iff_exists.mp hsome
    rw [calculate_layout_positions, hq]
    exact ⟨_, rfl⟩

/-- C9 witness: a concrete two-panel run stays within W = 100, and a
single 200-wide panel on a 100-wide sheet is rejected. -/
theorem c9_packer_width_limit_witness :
    (∀ pr ∈ ([("a", Rect.mk 0 0 10 10), ("b", Rect.mk 12 0 20 5)] :
        List (String × Rect)), pr.2.x + pr.2.w ≤ (100 : ℚ)) ∧
    (∃ e, calculate_layout_positions [("wide", 200, 10)] 0 100 = .error e) :=
  ⟨(c9_packer_width_limit [("a", 10, 10), ("b", 20, 5)] 0 100).1
      [("a", Rect.mk 0 0 10 10), ("b", Rect.mk 12 0 20 5)]
      (by with_unfolding_all rfl),
   (c9_packer_width_limit [("wide", 200, 10)] 0 100).2
      ("wide", 200, 10) (List.mem_cons_self _ _) (by norm_num)⟩

end HouseMaker
